import Mathlib

/-!
Verification of the Video-Insight-AI ingestion pipeline
(`src/server/services/storeDocumentService.js`) against its
natural-language specification.

The JavaScript source is shallowly embedded: strings are `List Char`
wrapped in `String`, regular-expression scans are explicit scanning
functions, `fetch`/`JSON.parse` and the other external collaborators are
oracles supplied by an `Env` record, and thrown exceptions are modelled
by explicit flags / early returns.
-/

set_option maxRecDepth 10000

/-! ## Generic character-list utilities -/

/-- `startsWithL pat l` : `l` begins with the literal `pat` (exact characters). -/
def startsWithL : List Char → List Char → Bool
  | [], _ => true
  | _ :: _, [] => false
  | p :: ps, c :: cs => p = c && startsWithL ps cs

/-- Drop the literal `pat` from the front of `l`, exact-character match
(`none` when `l` does not start with `pat`). -/
def chopLit : List Char → List Char → Option (List Char)
  | [], l => some l
  | _ :: _, [] => none
  | p :: ps, c :: cs => if p = c then chopLit ps cs else none

/-- ASCII lower-casing, used to model the `i` flag of the source's regexes. -/
def lowerA (c : Char) : Char :=
  if 'A' ≤ c ∧ c ≤ 'Z' then Char.ofNat (c.toNat + 32) else c

/-- Drop the literal `pat` from the front of `l`, ASCII-case-insensitive
(models a case-insensitive regex literal). -/
def chopLitCI : List Char → List Char → Option (List Char)
  | [], l => some l
  | _ :: _, [] => none
  | p :: ps, c :: cs => if lowerA p = lowerA c then chopLitCI ps cs else none

/-- `containsSub pat l` : the literal `pat` occurs somewhere in `l`
(models JavaScript `String.prototype.includes`). -/
def containsSub (pat : List Char) : List Char → Bool
  | [] => startsWithL pat []
  | l@(_ :: t) => startsWithL pat l || containsSub pat t

/-- Replace every non-overlapping occurrence of `pat` (non-empty) by `rep`,
scanning left to right: models JavaScript `.replace(/pat/g, rep)` for a
literal pattern.  `fuel` bounds the recursion; callers pass the input length. -/
def replaceAllL (pat rep : List Char) : Nat → List Char → List Char
  | 0, l => l
  | _ + 1, [] => []
  | fuel + 1, l@(c :: t) =>
    if startsWithL pat l && !pat.isEmpty then
      rep ++ replaceAllL pat rep fuel (l.drop pat.length)
    else
      c :: replaceAllL pat rep fuel t

/-- The white-space characters trimmed by JavaScript `String.prototype.trim`
(the ones relevant to this code base). -/
def isJsWs (c : Char) : Bool :=
  c = ' ' || c = '\t' || c = '\n' || c = '\r' || c = '\x0b' || c = '\x0c' ||
  c = '\u00A0' || c = '\uFEFF'

/-- Model of JavaScript `String.prototype.trim` on a character list. -/
def jsTrimL (l : List Char) : List Char :=
  ((l.dropWhile isJsWs).reverse.dropWhile isJsWs).reverse

/-- Model of JavaScript `String.prototype.trim`. -/
def jsTrim (s : String) : String := String.mk (jsTrimL s.toList)

/-! ## `decodeHtmlEntities` (source lines 37-50)

The source applies nine global replacements in a fixed order — ampersand
first — and then trims. -/

/-- One `.replace(/lit/g, rep)` pass of the source, at the list level. -/
def replacePass (lit rep : String) (l : List Char) : List Char :=
  replaceAllL lit.toList rep.toList l.length l

/-- Embedding of `decodeHtmlEntities` (source lines 37-50): sequential global
replacements `&amp;` `&lt;` `&gt;` `&quot;` `&#39;` `&apos;` `&nbsp;`,
literal `\n`, real newline, then `trim()`. -/
def decodeHtmlEntities (s : String) : String :=
  if s = "" then "" else
  String.mk (jsTrimL
    (replacePass "\n" " "
      (replacePass "\\n" " "
        (replacePass "&nbsp;" " "
          (replacePass "&apos;" "\x27"
            (replacePass "&#39;" "\x27"
              (replacePass "&quot;" "\""
                (replacePass "&gt;" ">"
                  (replacePass "&lt;" "<"
                    (replacePass "&amp;" "&" s.toList))))))))))

/-! ## `extractVideoId` (source lines 7-18) -/

/-- The capture class `[^&\n?#]` of the first URL pattern stops at these. -/
def isTermCh (c : Char) : Bool :=
  c = '&' || c = '\n' || c = '?' || c = '#'

/-- The character class `[a-zA-Z0-9_-]` of the bare-id pattern. -/
def isIdCh (c : Char) : Bool :=
  c.isAlphanum || c = '-' || c = '_'

/-- Attempt the URL alternation
`youtube.com/watch?v=|youtu.be/|youtube.com/embed/` at the head of `l`,
capturing the following non-empty `[^&\n?#]+` run. -/
def tryUrlPat (l : List Char) : Option (List Char) :=
  let cap : List Char → Option (List Char) := fun rest =>
    let run := rest.takeWhile (fun c => !isTermCh c)
    if run.isEmpty then none else some run
  match chopLit "youtube.com/watch?v=".toList l with
  | some rest => cap rest
  | none =>
    match chopLit "youtu.be/".toList l with
    | some rest => cap rest
    | none =>
      match chopLit "youtube.com/embed/".toList l with
      | some rest => cap rest
      | none => none

/-- Scan every start position left to right for the URL pattern, as the
JavaScript regex engine does. -/
def scanUrlPat : List Char → Option (List Char)
  | [] => none
  | l@(_ :: t) =>
    match tryUrlPat l with
    | some r => some r
    | none => scanUrlPat t

/-- Embedding of `extractVideoId` (source lines 7-18): first the URL
alternation anywhere in the string, then the whole-string 11-character
`[a-zA-Z0-9_-]` pattern; `none` models the `null` return. -/
def extractVideoId (url : String) : Option String :=
  match scanUrlPat url.toList with
  | some r => some (String.mk r)
  | none =>
    if url.toList.length = 11 && url.toList.all isIdCh then some url else none

/-! ## JSON values and JavaScript object semantics

`JSON.parse` is a JavaScript builtin; its possible results are modelled by
`Json`, and the builtin itself by an oracle `String → Option Json` supplied
by the environment (`none` models a parse exception).  Concrete theorems
instantiate the oracle pointwise with the actual parse results of the
concrete strings involved. -/

/-- JSON values, as produced by `JSON.parse`. -/
inductive Json where
  | null : Json
  | bool : Bool → Json
  | num : Int → Json
  | str : String → Json
  | arr : List Json → Json
  | obj : List (String × Json) → Json

/-- JavaScript truthiness of a JSON value. -/
def Json.truthy : Json → Bool
  | .null => false
  | .bool b => b
  | .num n => n ≠ 0
  | .str s => s ≠ ""
  | .arr _ => true
  | .obj _ => true

/-- First field with the given key of a JSON object field list. -/
def jLookup (k : String) : List (String × Json) → Option Json
  | [] => none
  | (k2, v) :: rest => if k2 = k then some v else jLookup k rest

/-- `j.k` restricted to string results: `some s` exactly when `j` is an
object whose `k` field is the string `s` (models the source's
`t.languageCode === 'en'`-style comparisons, which only ever succeed on
strings). -/
def jGetStr (j : Json) (k : String) : Option String :=
  match j with
  | .obj fs =>
    match jLookup k fs with
    | some (.str s) => some s
    | _ => none
  | _ => none

/-! ## The `events[].segs[].utf8` walkers (source lines 83-101 and 185-200)

Both walks iterate `for (const event of j.events) for (const seg of
event.segs)` and push a transform of `seg.utf8` into a shared array; either
can throw a `TypeError` part-way (property access on `null`, `for…of` over a
non-iterable truthy value, string method on a truthy non-string `utf8`).
The walkers therefore return the segments collected so far together with a
flag recording whether an exception was thrown. -/

/-- Process one `seg`: push `push seg.utf8` when `seg.utf8` is a truthy
string, throw on `null` segs or truthy non-string `utf8` values. -/
def walkSeg (push : String → Option String) (acc : List String) :
    Json → List String × Bool
  | .null => (acc, true)
  | .obj fs =>
    match jLookup "utf8" fs with
    | none => (acc, false)
    | some v =>
      if v.truthy then
        match v with
        | .str s =>
          match push s with
          | some d => (acc ++ [d], false)
          | none => (acc, false)
        | _ => (acc, true)
      else (acc, false)
  | _ => (acc, false)

/-- Fold `walkSeg` over a seg list, stopping at the first thrown exception. -/
def walkSegList (push : String → Option String) (acc : List String) :
    List Json → List String × Bool
  | [] => (acc, false)
  | s :: rest =>
    match walkSeg push acc s with
    | (acc2, true) => (acc2, true)
    | (acc2, false) => walkSegList push acc2 rest

/-- Process one `event`: iterate its `segs` when they form a truthy array
(`for…of` over a truthy string yields one-character strings whose `.utf8`
is `undefined`, contributing nothing; any other truthy non-array throws;
`null` events throw at the `event.segs` access). -/
def walkEvent (push : String → Option String) (acc : List String) :
    Json → List String × Bool
  | .null => (acc, true)
  | .obj fs =>
    match jLookup "segs" fs with
    | none => (acc, false)
    | some v =>
      if v.truthy then
        match v with
        | .arr segs => walkSegList push acc segs
        | .str _ => (acc, false)
        | _ => (acc, true)
      else (acc, false)
  | _ => (acc, false)

/-- Fold `walkEvent` over an event list, stopping at the first exception. -/
def walkEventList (push : String → Option String) (acc : List String) :
    List Json → List String × Bool
  | [] => (acc, false)
  | e :: rest =>
    match walkEvent push acc e with
    | (acc2, true) => (acc2, true)
    | (acc2, false) => walkEventList push acc2 rest

/-- Walk a whole parsed caption document `j`: access `j.events` (throws on
`null`), skip when falsy, iterate when a truthy array (truthy strings
iterate as characters and contribute nothing; other truthy values throw). -/
def walkEvents (push : String → Option String) : Json → List String × Bool
  | .null => ([], true)
  | .obj fs =>
    match jLookup "events" fs with
    | none => ([], false)
    | some v =>
      if v.truthy then
        match v with
        | .arr evs => walkEventList push [] evs
        | .str _ => ([], false)
        | _ => ([], true)
      else ([], false)
  | _ => ([], false)

/-! ## `parseCaptionXml` (source lines 53-121) -/

/-- Generic model of a JavaScript `while ((m = re.exec(s)) !== null)` loop
over a global regex: at each start position try `att`; on a match emit the
capture and resume after the match, otherwise advance one character.
`fuel` bounds the recursion; callers pass the input length. -/
def scanCaps (att : List Char → Option (List Char × List Char)) :
    Nat → List Char → List (List Char)
  | 0, _ => []
  | _ + 1, [] => []
  | fuel + 1, l@(_ :: t) =>
    match att l with
    | some (cap, rest) => cap :: scanCaps att fuel rest
    | none => scanCaps att fuel t

/-- Pattern 1 `/<text[^>]*>([^<]+)<\/text>/gi` attempted at one position:
case-insensitive `<text`, attributes up to the first `>`, a non-empty
`[^<]+` capture, then case-insensitive `</text>`. -/
def tryPat1 (l : List Char) : Option (List Char × List Char) :=
  match chopLitCI "<text".toList l with
  | none => none
  | some r1 =>
    let attrs := r1.takeWhile (fun c => c ≠ '>')
    match r1.drop attrs.length with
    | '>' :: r2 =>
      let body := r2.takeWhile (fun c => c ≠ '<')
      if body.isEmpty then none
      else
        match chopLitCI "</text>".toList (r2.drop body.length) with
        | some r3 => some (body, r3)
        | none => none
    | _ => none

/-- The `]]></text>` closer of pattern 2 (`]]>` exact, `</text>`
case-insensitive). -/
def pat2Close (l : List Char) : Option (List Char) :=
  match chopLit "]]>".toList l with
  | some r => chopLitCI "</text>".toList r
  | none => none

/-- The lazy `(.*?)` body of pattern 2: the shortest run of non-newline
characters followed by `]]></text>` (regex `.` does not match newlines). -/
def pat2Body (acc : List Char) : List Char → Option (List Char × List Char)
  | [] => none
  | l@(c :: t) =>
    match pat2Close l with
    | some rest => some (acc, rest)
    | none => if c = '\n' then none else pat2Body (acc ++ [c]) t

/-- Pattern 2 `/<text[^>]*><!\[CDATA\[(.*?)\]\]><\/text>/gi` attempted at
one position. -/
def tryPat2 (l : List Char) : Option (List Char × List Char) :=
  match chopLitCI "<text".toList l with
  | none => none
  | some r1 =>
    let attrs := r1.takeWhile (fun c => c ≠ '>')
    match r1.drop attrs.length with
    | '>' :: r2 =>
      match chopLitCI "<![CDATA[".toList r2 with
      | some r3 => pat2Body [] r3
      | none => none
    | _ => none

/-- Pattern 4 `/>([^<]{2,})</g` attempted at one position: `>`, a maximal
run of at least two non-`<` characters, then `<` (consumed by the match). -/
def tryPat4 (l : List Char) : Option (List Char × List Char) :=
  match l with
  | '>' :: r =>
    let run := r.takeWhile (fun c => c ≠ '<')
    if run.length < 2 then none
    else
      match r.drop run.length with
      | '<' :: rest => some (run, rest)
      | _ => none
  | _ => none

/-- Segments produced by pattern 1 (source lines 57-62): decoded bodies
that are non-empty after decoding. -/
def pattern1Segs (xml : String) : List String :=
  ((scanCaps tryPat1 xml.toList.length xml.toList).map
    (fun cap => decodeHtmlEntities (String.mk cap))).filter (fun d => d ≠ "")

/-- Segments produced by pattern 2, the CDATA pattern (source lines 70-74). -/
def pattern2Segs (xml : String) : List String :=
  ((scanCaps tryPat2 xml.toList.length xml.toList).map
    (fun cap => decodeHtmlEntities (String.mk cap))).filter (fun d => d ≠ "")

/-- Segments produced by pattern 4, the generic scrape (source lines
107-113): decoded captures that are non-empty, do not start with the XML
declaration marker `<?` and do not contain the word `encoding`. -/
def pattern4Segs (xml : String) : List String :=
  ((scanCaps tryPat4 xml.toList.length xml.toList).map
    (fun cap => decodeHtmlEntities (String.mk cap))).filter
    (fun d => d ≠ "" && !startsWithL "<?".toList d.toList &&
      !containsSub "encoding".toList d.toList)

/-- The push step of pattern 3 (source lines 89-92): decode, keep when
non-empty and not a bare newline. -/
def pattern3Push (s : String) : Option String :=
  let d := decodeHtmlEntities s
  if d ≠ "" && d ≠ "\n" then some d else none

/-- Pattern 3 (source lines 82-104): when the response contains the literal
`"events"`, `JSON.parse` it (via the oracle `jp`; `none` models the parse
exception) and walk `events[].segs[].utf8`.  Returns the segments pushed
before any exception together with the thrown-exception flag; on a throw
the shared `texts` array keeps those segments for pattern 4. -/
def pattern3Run (jp : String → Option Json) (xml : String) :
    List String × Bool :=
  if containsSub "\"events\"".toList xml.toList then
    match jp xml with
    | none => ([], true)
    | some j => walkEvents pattern3Push j
  else ([], false)

/-- Embedding of `parseCaptionXml` (source lines 53-121).  The four
patterns share one `texts` array: patterns 1 and 2 return as soon as the
array is non-empty, pattern 3 returns only when its walk completed without
an exception, and pattern 4 appends to whatever pattern 3 left behind. -/
def parseCaptionXml (jp : String → Option Json) (xml : String) :
    Option String :=
  let t1 := pattern1Segs xml
  if !t1.isEmpty then some (String.intercalate " " t1) else
  let t2 := pattern2Segs xml
  if !t2.isEmpty then some (String.intercalate " " t2) else
  let p3 := pattern3Run jp xml
  if !p3.2 && !p3.1.isEmpty then some (String.intercalate " " p3.1) else
  let t4 := p3.1 ++ pattern4Segs xml
  if !t4.isEmpty then some (String.intercalate " " t4) else none

/-! ## `fetchTranscript` (source lines 124-284) -/

/-- Generic first-match scan of a non-global regex (`String.prototype.match`):
try `att` at every start position, left to right. -/
def scanFirst (att : List Char → Option (List Char)) : List Char → Option (List Char)
  | [] => none
  | l@(_ :: t) =>
    match att l with
    | some r => some r
    | none => scanFirst att t

/-- The lazy `.+?` body of `/ytInitialPlayerResponse\s*=\s*(\{.+?\});/`:
the shortest non-empty run of non-newline characters followed by the
closing brace and semicolon. -/
def prBody (acc : List Char) : List Char → Option (List Char)
  | [] => none
  | c :: t =>
    if c = '\n' then none
    else if startsWithL ['\x7d', ';'] t then some (acc ++ [c])
    else prBody (acc ++ [c]) t

/-- The player-response regex (source line 145) attempted at one position;
returns the captured `{...}` text. -/
def tryPlayerResp (l : List Char) : Option (List Char) :=
  match chopLit "ytInitialPlayerResponse".toList l with
  | none => none
  | some r1 =>
    match r1.dropWhile isJsWs with
    | '=' :: r2 =>
      match r2.dropWhile isJsWs with
      | '\x7b' :: r3 =>
        match prBody [] r3 with
        | some body => some ('\x7b' :: (body ++ ['\x7d']))
        | none => none
      | _ => none
    | _ => none

/-- The `\s*,\s*"` tail of the `"captionTracks"` fallback regex (source
line 232), checked after a candidate closing bracket. -/
def ctClose (l : List Char) : Bool :=
  match l.dropWhile isJsWs with
  | ',' :: r =>
    match r.dropWhile isJsWs with
    | '"' :: _ => true
    | _ => false
  | _ => false

/-- The lazy `[\s\S]*?` body of the `"captionTracks"` regex: the shortest
(possibly empty) run of arbitrary characters up to a `]` whose tail
matches `\s*,\s*"`. -/
def ctBody (acc : List Char) : List Char → Option (List Char)
  | [] => none
  | c :: t =>
    if c = ']' && ctClose t then some acc
    else ctBody (acc ++ [c]) t

/-- The `"captionTracks"` fallback regex (source line 232) attempted at one
position; returns the captured `[...]` text. -/
def tryCaptionTracks (l : List Char) : Option (List Char) :=
  match chopLit "\"captionTracks\"".toList l with
  | none => none
  | some r1 =>
    match r1.dropWhile isJsWs with
    | ':' :: r2 =>
      match r2.dropWhile isJsWs with
      | '[' :: r3 =>
        match ctBody [] r3 with
        | some body => some ('[' :: (body ++ [']']))
        | none => none
      | _ => none
    | _ => none

/-- `j.k` with plain object semantics (`none` models `undefined`); used for
the optional chains, which never throw. -/
def jGet (j : Json) (k : String) : Option Json :=
  match j with
  | .obj fs => jLookup k fs
  | _ => none

/-- `playerData?.captions?.playerCaptionsTracklistRenderer?.captionTracks`
(source line 150). -/
def captionTracksOf (playerData : Json) : Option Json :=
  ((jGet playerData "captions").bind
    (fun c => jGet c "playerCaptionsTracklistRenderer")).bind
    (fun r => jGet r "captionTracks")

/-- `t.languageCode === 'en' && t.kind !== 'asr'` (source line 156). -/
def trackP1 (t : Json) : Bool :=
  jGetStr t "languageCode" == some "en" && jGetStr t "kind" != some "asr"

/-- `t.languageCode === 'en'` (source line 157). -/
def trackP2 (t : Json) : Bool :=
  jGetStr t "languageCode" == some "en"

/-- `t.languageCode?.startsWith('en')` (source line 158). -/
def trackP3 (t : Json) : Bool :=
  match jGetStr t "languageCode" with
  | some lc => startsWithL "en".toList lc.toList
  | none => false

/-- Embedding of the track-selection chain (source lines 156-159):
`find(P1) || find(P2) || find(P3) || captions[0]`. -/
def selectTrack (tracks : List Json) : Option Json :=
  match tracks.find? trackP1 with
  | some t => some t
  | none =>
    match tracks.find? trackP2 with
    | some t => some t
    | none =>
      match tracks.find? trackP3 with
      | some t => some t
      | none => tracks.head?

/-- The push step of the json3 walks (source lines 190-192 and 253-255):
keep `seg.utf8.trim()` when the trim is non-empty and `utf8` is not a bare
newline (the surrounding truthiness guard on `utf8` lives in the walker). -/
def json3Push (s : String) : Option String :=
  if jsTrim s ≠ "" && s ≠ "\n" then some (jsTrim s) else none

/-- The environment of external collaborators: the embedding API-key
variable, the `fetch` oracle for the watch page and caption endpoints
(`none` models a non-success response), the `JSON.parse` oracle, the
oEmbed title oracle, and the vector-store `addDocuments` outcome
(`some msg` models a thrown error). -/
structure Env where
  geminiApiKey : Option String
  fetch : String → Option String
  jp : String → Option Json
  oembed : String → Option String
  addDocsErr : Option String

/-- The network calls `fetchTranscript` can make. -/
inductive FetchCall where
  | watchPage : String → FetchCall
  | caption : String → FetchCall
deriving DecidableEq

/-- `JSON.parse` plus the `events[].segs[].utf8` walk of a caption body
(source lines 184-200 and 247-263); `.2` records a thrown exception. -/
def json3Run (jp : String → Option Json) (body : String) : List String × Bool :=
  match jp body with
  | none => ([], true)
  | some j => walkEvents json3Push j

/-- The XML fallback of the primary path (source lines 207-223): fetch the
track's plain URL and run the four-pattern parse on the response. -/
def xmlAttempt (env : Env) (u : String) (tr : List FetchCall) :
    Option String × List FetchCall :=
  match env.fetch u with
  | some xml => (parseCaptionXml env.jp xml, tr ++ [.caption u])
  | none => (none, tr ++ [.caption u])

/-- The primary, player-response path of `fetchTranscript` (source lines
145-229): locate and parse `ytInitialPlayerResponse`, walk to the caption
tracks, select one, try the `&fmt=json3` payload, then the plain-URL XML
payload.  A `none` result falls through to the regex fallback, exactly as
every failure or caught exception in this block reaches source line 231. -/
def tryPrimary (env : Env) (html : String) : Option String × List FetchCall :=
  match scanFirst tryPlayerResp html.toList with
  | none => (none, [])
  | some cap =>
    match env.jp (String.mk cap) with
    | none => (none, [])
    | some playerData =>
      match captionTracksOf playerData with
      | some (Json.arr (t0 :: trest)) =>
        match selectTrack (t0 :: trest) with
        | none => (none, [])
        | some tr =>
          match jGetStr tr "baseUrl" with
          | none => (none, [])
          | some u =>
            if u = "" then (none, [])
            else
              let jurl := u ++ "&fmt=json3"
              match env.fetch jurl with
              | some body =>
                let r := json3Run env.jp body
                if !r.2 && !r.1.isEmpty then
                  (some (String.intercalate " " r.1), [.caption jurl])
                else xmlAttempt env u [.caption jurl]
              | none => xmlAttempt env u [.caption jurl]
      | _ => (none, [])

/-- The regex fallback of `fetchTranscript` (source lines 231-275): find a
`"captionTracks": [...]` literal, take the FIRST track, fetch only the
`&fmt=json3` payload, and on a JSON exception run the four-pattern XML
parse on that same response body (the plain URL is never fetched here). -/
def tryFallback (env : Env) (html : String) : Option String × List FetchCall :=
  match scanFirst tryCaptionTracks html.toList with
  | none => (none, [])
  | some cap =>
    match env.jp (String.mk cap) with
    | none => (none, [])
    | some (Json.arr (t0 :: _)) =>
      match jGetStr t0 "baseUrl" with
      | none => (none, [])
      | some u =>
        if u = "" then (none, [])
        else
          let jurl := u ++ "&fmt=json3"
          match env.fetch jurl with
          | none => (none, [.caption jurl])
          | some body =>
            let r := json3Run env.jp body
            if r.2 then (parseCaptionXml env.jp body, [.caption jurl])
            else if !r.1.isEmpty then
              (some (String.intercalate " " r.1), [.caption jurl])
            else (none, [.caption jurl])
    | some _ => (none, [])

/-- Embedding of `fetchTranscript` (source lines 124-284): fetch the watch
page, try the primary path, then the regex fallback; `none` models the
`null` "no transcript" signal.  The second component lists the network
calls made, in order. -/
def fetchTranscript (env : Env) (vid : String) :
    Option String × List FetchCall :=
  match env.fetch ("https://www.youtube.com/watch?v=" ++ vid) with
  | none => (none, [.watchPage vid])
  | some html =>
    let p := tryPrimary env html
    match p.1 with
    | some t => (some t, .watchPage vid :: p.2)
    | none =>
      let f := tryFallback env html
      (f.1, .watchPage vid :: (p.2 ++ f.2))

/-! ## `storeDocument` (source lines 286-385) -/

/-- Metadata values: strings, numbers, or JavaScript `undefined` (for a
missing request `documentId`). -/
inductive MVal where
  | s : String → MVal
  | n : Nat → MVal
  | undef : MVal
deriving DecidableEq

/-- A chunk as submitted to the vector store: content plus metadata, the
metadata being the ordered key/value pairs of the source's object literal
(source lines 352-362). -/
structure ChunkDoc where
  pageContent : String
  metadata : List (String × MVal)
deriving DecidableEq

/-- All network calls the pipeline can make. -/
inductive NetCall where
  | fetched : FetchCall → NetCall
  | oembedCall : String → NetCall
  | storeCall : List ChunkDoc → NetCall
deriving DecidableEq

/-- The request body: `{ url, documentId }`. -/
structure Req where
  url : Option String
  documentId : Option String

/-- The pipeline result: `{ ok: true, message, chunksCreated, videoTitle }`
or `{ ok: false, error, suggestion }`. -/
inductive StoreResult where
  | success : String → Nat → String → StoreResult
  | failure : String → String → StoreResult
deriving DecidableEq

/-- The fixed `suggestion` of every failure result (source line 382). -/
def sugg : String := "Try using a video with captions enabled."

/-- The transcript-unavailable message (source lines 324-328). -/
def noTranscriptMsg : String :=
  "Could not fetch transcript for this video. The video may not have captions, or they may be disabled. Please try a different video with captions enabled."

/-- Embedding of `getVideoTitle` (source lines 21-34).  Modelled from the
spec: the oEmbed endpoint is an external service; `env.oembed vid = some t`
models a successful response whose JSON body carries the string title `t`,
and `none` models a network failure, non-success status or unparsable
body — every such case returns the fixed placeholder. -/
def getVideoTitle (env : Env) (vid : String) : String :=
  match env.oembed vid with
  | some t => t
  | none => "Unknown Title"

/-- Modelled from the spec: the chunker (`RecursiveCharacterTextSplitter`
with `chunkSize: 1000, chunkOverlap: 200`) is an external library, not code
of this repository; §4.4 specifies fixed-size sliding windows of ~1000
characters with ~200 overlap, only the final chunk possibly shorter.
`max 1` only guards degenerate parameters never used here; `fuel` bounds
the recursion and callers pass the input length, which each step shrinks. -/
def slidingChunks (size overlap : Nat) : Nat → List Char → List (List Char)
  | 0, l => [l]
  | fuel + 1, l =>
    if l.length ≤ size then [l]
    else
      l.take size ::
        slidingChunks size overlap fuel (l.drop (max 1 (size - overlap)))

/-- The text splitter applied by the pipeline (source lines 339-344). -/
def splitText (s : String) : List String :=
  (slidingChunks 1000 200 s.toList.length s.toList).map (fun l => String.mk l)

/-- The metadata object literal attached to chunk `i` (source lines
354-361); note the key `document_id`. -/
def mkMetadata (vid title : String) (docId : Option String) (i total : Nat)
    (src : String) : List (String × MVal) :=
  [("videoId", .s vid), ("videoTitle", .s title),
   ("document_id", match docId with | some d => .s d | none => .undef),
   ("chunkIndex", .n i), ("totalChunks", .n total), ("source", .s src)]

/-- `texts.map((text, index) => ({...text, metadata: {...}}))`
(source lines 352-362), with the running index made explicit. -/
def annotate (vid title : String) (docId : Option String) (total : Nat)
    (src : String) : Nat → List String → List ChunkDoc
  | _, [] => []
  | i, t :: rest =>
    ⟨t, mkMetadata vid title docId i total src⟩ ::
      annotate vid title docId total src (i + 1) rest

/-- Truthiness of `process.env.GEMINI_API_KEY` (source line 304). -/
def keyTruthy (env : Env) : Bool :=
  match env.geminiApiKey with
  | some k => k ≠ ""
  | none => false

/-- Embedding of `storeDocument` (source lines 286-385).  The
`createSupabaseClient()` call (source line 302) is an external collaborator
(configuration plumbing, out of the spec's scope) modelled as a non-failing
constructor making no network call, as are the two client constructors.
The second component lists the network calls made, in order. -/
def storeDocument (env : Env) (req : Req) : StoreResult × List NetCall :=
  match req.url with
  | none => (.failure "URL is required in the request body" sugg, [])
  | some u =>
    if u = "" then (.failure "URL is required in the request body" sugg, [])
    else
      match extractVideoId u with
      | none =>
        (.failure "Invalid YouTube URL. Could not extract video ID." sugg, [])
      | some vid =>
        if keyTruthy env then
          let ft := fetchTranscript env vid
          let tr1 := ft.2.map NetCall.fetched
          match ft.1 with
          | none => (.failure noTranscriptMsg sugg, tr1)
          | some transcript =>
            if jsTrim transcript = "" then (.failure noTranscriptMsg sugg, tr1)
            else
              let title := getVideoTitle env vid
              let tr2 := tr1 ++ [NetCall.oembedCall vid]
              let pageContent :=
                "Video title: " ++ title ++ " | Video context: " ++ transcript
              let texts := splitText pageContent
              match texts with
              | [] =>
                (.failure "Document has no content to embed after splitting"
                  sugg, tr2)
              | t0 :: _ =>
                if t0 = "" then
                  (.failure "Document has no content to embed after splitting"
                    sugg, tr2)
                else
                  let docs := annotate vid title req.documentId texts.length u 0 texts
                  match env.addDocsErr with
                  | some e => (.failure e sugg, tr2 ++ [NetCall.storeCall docs])
                  | none =>
                    (.success
                      ("Successfully processed video \"" ++ title ++ "\" with "
                        ++ toString texts.length ++ " chunks")
                      texts.length title,
                     tr2 ++ [NetCall.storeCall docs])
        else
          (.failure "GEMINI_API_KEY is not configured in environment variables"
            sugg, [])

/-! ## Definitions used to state the claims -/

/-- The specification's reading of the caption parse (§4.2 step 6): run the
four candidate patterns in order and return the segments of the first
pattern that yields any, joined with single spaces.  Stated from the
spec's words for comparison with `parseCaptionXml`. -/
def specFirstMatchParse (jp : String → Option Json) (xml : String) :
    Option String :=
  let t1 := pattern1Segs xml
  if !t1.isEmpty then some (String.intercalate " " t1) else
  let t2 := pattern2Segs xml
  if !t2.isEmpty then some (String.intercalate " " t2) else
  let t3 := (pattern3Run jp xml).1
  if !t3.isEmpty then some (String.intercalate " " t3) else
  let t4 := pattern4Segs xml
  if !t4.isEmpty then some (String.intercalate " " t4) else none

/-- A caption response whose only `<text>` elements wrap CDATA content. -/
def cdataXml : String := "<text start=\"0\"><![CDATA[Hello world]]></text>"

/-- A `JSON.parse` oracle for inputs that never parse. -/
def jpNone : String → Option Json := fun _ => none

/-- A caption response that is valid JSON with one good `utf8` segment, a
`null` events entry (which makes the walk of source line 86-95 throw after
the first push), and a `>abc<` fragment that pattern 4 scrapes. -/
def badCaption : String :=
  "\x7b\"events\":[\x7b\"segs\":[\x7b\"utf8\":\"hi\"\x7d]\x7d,null],\"x\":\">abc<\"\x7d"

/-- `JSON.parse badCaption`. -/
def badCaptionJson : Json :=
  Json.obj [("events", Json.arr
      [Json.obj [("segs", Json.arr [Json.obj [("utf8", Json.str "hi")]])],
       Json.null]),
    ("x", Json.str ">abc<")]

/-- `JSON.parse` restricted to the inputs of the pattern-3 counterexample. -/
def jpBad : String → Option Json :=
  fun s => if s = badCaption then some badCaptionJson else none

/-- Watch-page HTML whose `ytInitialPlayerResponse` carries one English
caption track with base URL `U`. -/
def okHtml : String :=
  "ytInitialPlayerResponse = \x7b\"captions\":\x7b\"playerCaptionsTracklistRenderer\":\x7b\"captionTracks\":[\x7b\"languageCode\":\"en\",\"baseUrl\":\"U\"\x7d]\x7d\x7d\x7d;"

/-- The text the player-response regex captures out of `okHtml`. -/
def okCapture : String :=
  "\x7b\"captions\":\x7b\"playerCaptionsTracklistRenderer\":\x7b\"captionTracks\":[\x7b\"languageCode\":\"en\",\"baseUrl\":\"U\"\x7d]\x7d\x7d\x7d"

/-- `JSON.parse okCapture`. -/
def okPlayerJson : Json :=
  Json.obj [("captions", Json.obj
    [("playerCaptionsTracklistRenderer", Json.obj
      [("captionTracks", Json.arr
        [Json.obj [("languageCode", Json.str "en"),
                   ("baseUrl", Json.str "U")]])])])]

/-- A well-formed json3 caption body with two segments. -/
def okBody : String :=
  "\x7b\"events\":[\x7b\"segs\":[\x7b\"utf8\":\"hello\"\x7d,\x7b\"utf8\":\" world\"\x7d]\x7d]\x7d"

/-- `JSON.parse okBody`. -/
def okEventsJson : Json :=
  Json.obj [("events", Json.arr
    [Json.obj [("segs", Json.arr
      [Json.obj [("utf8", Json.str "hello")],
       Json.obj [("utf8", Json.str " world")]])]])]

/-- An environment in which every pipeline stage succeeds. -/
def envOk : Env where
  geminiApiKey := some "k"
  fetch := fun url =>
    if url = "https://www.youtube.com/watch?v=abcdefghijk" then some okHtml
    else if url = "U&fmt=json3" then some okBody
    else none
  jp := fun s =>
    if s = okCapture then some okPlayerJson
    else if s = okBody then some okEventsJson
    else none
  oembed := fun _ => some "T"
  addDocsErr := none

/-- A request carrying a valid short-form URL and a document id. -/
def reqOk : Req := { url := some "https://youtu.be/abcdefghijk", documentId := some "doc1" }

/-- `envOk` with a failing oEmbed endpoint. -/
def envOkNoTitle : Env where
  geminiApiKey := some "k"
  fetch := envOk.fetch
  jp := envOk.jp
  oembed := fun _ => none
  addDocsErr := none

/-- An environment whose key is present but in which every network fetch
fails. -/
def envNoFetch : Env where
  geminiApiKey := some "k"
  fetch := fun _ => none
  jp := fun _ => none
  oembed := fun _ => none
  addDocsErr := none

/-- An environment with no `GEMINI_API_KEY`. -/
def envNoKey : Env where
  geminiApiKey := none
  fetch := fun _ => none
  jp := fun _ => none
  oembed := fun _ => none
  addDocsErr := none

/-- Watch-page HTML with no `ytInitialPlayerResponse` but with a
`"captionTracks": [...]` literal for the regex fallback. -/
def fbHtml : String := "\"captionTracks\": [\x7b\"baseUrl\":\"U\"\x7d], \"audioTracks\""

/-- The text the fallback regex captures out of `fbHtml`. -/
def fbCapture : String := "[\x7b\"baseUrl\":\"U\"\x7d]"

/-- `JSON.parse fbCapture`. -/
def fbTracksJson : Json := Json.arr [Json.obj [("baseUrl", Json.str "U")]]

/-- A caption body that is not JSON (so the fallback's `JSON.parse` throws)
but parses as XML pattern 1. -/
def fbBody : String := "<text>hi</text>"

/-- An environment that exercises the regex fallback with a non-JSON
caption body. -/
def envC6 : Env where
  geminiApiKey := some "k"
  fetch := fun url =>
    if url = "https://www.youtube.com/watch?v=v" then some fbHtml
    else if url = "U&fmt=json3" then some fbBody
    else none
  jp := fun s => if s = fbCapture then some fbTracksJson else none
  oembed := fun _ => none
  addDocsErr := none

/-- Whether a trace contains a vector-store `addDocuments` call. -/
def hasStoreCall : List NetCall → Bool
  | [] => false
  | .storeCall _ :: _ => true
  | _ :: t => hasStoreCall t

/-- All chunk documents submitted to the vector store in a trace. -/
def storedDocsOf : List NetCall → List ChunkDoc
  | [] => []
  | .storeCall ds :: t => ds ++ storedDocsOf t
  | _ :: t => storedDocsOf t

/-- The single chunk document the `envOk`/`reqOk` run stores. -/
def docsOk : List ChunkDoc :=
  [⟨"Video title: T | Video context: hello world",
    mkMetadata "abcdefghijk" "T" (some "doc1") 0 1 "https://youtu.be/abcdefghijk"⟩]

/-- A caption-track list whose first English non-auto-generated track is
its third entry. -/
def tracksW : List Json :=
  [Json.obj [("languageCode", Json.str "fr"), ("baseUrl", Json.str "A")],
   Json.obj [("languageCode", Json.str "en"), ("kind", Json.str "asr"),
             ("baseUrl", Json.str "B")],
   Json.obj [("languageCode", Json.str "en"), ("baseUrl", Json.str "C")]]

/-! ## Helper lemmas -/

theorem toList_mk (l : List Char) : (String.mk l).toList = l := rfl

theorem chopLit_append (p r : List Char) : chopLit p (p ++ r) = some r := by
  induction p with
  | nil => rfl
  | cons c cs ih => simp [chopLit, ih]

theorem chopLit_some (p : List Char) :
    ∀ l r, chopLit p l = some r → l = p ++ r := by
  induction p with
  | nil =>
    intro l r h
    simp [chopLit] at h
    simp [h]
  | cons c cs ih =>
    intro l r h
    cases l with
    | nil => simp [chopLit] at h
    | cons d ds =>
      by_cases hc : c = d
      · subst hc
        simp [chopLit] at h
        simpa using ih ds r h
      · simp [chopLit, hc] at h

/-! ## C10 -/

/-- C10: the HTML-entity decoder replaces `&amp;` first, so the
doubly-escaped input `&amp;lt;` decodes all the way down to `<` rather
than to the single-level unescaping `&lt;`: decoding is not a homomorphism
over one level of entity escaping. -/
theorem c10_decode_double_unescape :
    decodeHtmlEntities "&amp;lt;" = "<" ∧
    decodeHtmlEntities "&amp;lt;" ≠ "&lt;" ∧
    decodeHtmlEntities "&lt;" = "<" := by decide

/-! ## C1 -/

/-- C1 counterexample: on `badCaption` patterns 1 and 2 yield nothing and
pattern 3 yields the segment `hi`, so by the claim the result should be
`hi`; but the pattern-3 walk throws on the `null` events entry after its
first push, and the segments it already collected leak into pattern 4's
shared array, giving `hi abc` instead. -/
theorem c1_counterexample :
    pattern1Segs badCaption = [] ∧
    pattern2Segs badCaption = [] ∧
    (pattern3Run jpBad badCaption).1 = ["hi"] ∧
    specFirstMatchParse jpBad badCaption = some "hi" ∧
    parseCaptionXml jpBad badCaption = some "hi abc" ∧
    parseCaptionXml jpBad badCaption ≠ specFirstMatchParse jpBad badCaption := by
  decide

/-- C1 amended: provided the pattern-3 JSON walk does not throw an
exception part-way, the parser's result is that of the first of the four
patterns, tried in the fixed order 1-2-3-4, that yields at least one
segment, joined with single spaces; and on an input containing only
CDATA-wrapped `<text>` elements, pattern 1 yields no segments, pattern 2
yields the CDATA content, and the parser returns it. -/
theorem c1_parse_order :
    (∀ jp xml, (pattern3Run jp xml).2 = false →
      parseCaptionXml jp xml = specFirstMatchParse jp xml) ∧
    (∀ jp, pattern1Segs cdataXml = [] ∧
      pattern2Segs cdataXml = ["Hello world"] ∧
      parseCaptionXml jp cdataXml = some "Hello world") := by
  constructor
  · intro jp xml h
    unfold parseCaptionXml specFirstMatchParse
    by_cases h1 : (pattern1Segs xml).isEmpty
    · by_cases h2 : (pattern2Segs xml).isEmpty
      · by_cases h3 : (pattern3Run jp xml).1.isEmpty
        · have h3e : (pattern3Run jp xml).1 = [] := by
            simpa [List.isEmpty_iff] using h3
          simp [h1, h2, h3, h3e, h]
        · simp [h1, h2, h3, h]
      · simp [h1, h2]
    · simp [h1]
  · intro jp
    have e1 : pattern1Segs cdataXml = [] := by decide
    have e2 : pattern2Segs cdataXml = ["Hello world"] := by decide
    refine ⟨e1, e2, ?_⟩
    unfold parseCaptionXml
    rw [e1, e2]
    simp [show String.intercalate " " ["Hello world"] = "Hello world" from by decide]

/-- C1 witness: a concrete instance of the amended ordering statement,
with the no-throw hypothesis discharged on the CDATA input. -/
theorem c1_parse_order_witness :
    parseCaptionXml jpNone cdataXml = specFirstMatchParse jpNone cdataXml :=
  c1_parse_order.1 jpNone cdataXml (by decide)

/-! ## C3 -/

theorem scanUrlPat_cons_some {l r : List Char}
    (h : tryUrlPat l = some r) (hne : l ≠ []) : scanUrlPat l = some r := by
  cases l with
  | nil => exact absurd rfl hne
  | cons c t => simp [scanUrlPat, h]

theorem takeWhile_run (P : Char → Bool) (id suf : List Char)
    (h1 : ∀ c ∈ id, P c = true) (h2 : ∀ c ∈ suf.take 1, P c = false) :
    (id ++ suf).takeWhile P = id := by
  induction id with
  | nil =>
    cases suf with
    | nil => rfl
    | cons c rest => simp [List.takeWhile_cons, h2 c (by simp)]
  | cons a as ih =>
    simp only [List.cons_append, List.takeWhile_cons, h1 a (by simp)]
    simp [ih (fun c hc => h1 c (by simp [hc]))]

theorem tryUrlPat_watch (id suf : List Char) (h1 : id ≠ [])
    (h2 : ∀ c ∈ id, isTermCh c = false)
    (h3 : ∀ c ∈ suf.take 1, isTermCh c = true) :
    tryUrlPat ("youtube.com/watch?v=".toList ++ (id ++ suf)) = some id := by
  have hrun : (id ++ suf).takeWhile (fun c => !isTermCh c) = id :=
    takeWhile_run _ id suf (fun c hc => by simp [h2 c hc])
      (fun c hc => by simp [h3 c hc])
  unfold tryUrlPat
  rw [chopLit_append]
  simp [hrun, h1]

theorem tryUrlPat_yb (id suf : List Char) (h1 : id ≠ [])
    (h2 : ∀ c ∈ id, isTermCh c = false)
    (h3 : ∀ c ∈ suf.take 1, isTermCh c = true) :
    tryUrlPat ("youtu.be/".toList ++ (id ++ suf)) = some id := by
  have hrun : (id ++ suf).takeWhile (fun c => !isTermCh c) = id :=
    takeWhile_run _ id suf (fun c hc => by simp [h2 c hc])
      (fun c hc => by simp [h3 c hc])
  have hw : chopLit "youtube.com/watch?v=".toList
      ("youtu.be/".toList ++ (id ++ suf)) = none := rfl
  unfold tryUrlPat
  rw [hw, chopLit_append]
  simp [hrun, h1]

theorem tryUrlPat_embed (id suf : List Char) (h1 : id ≠ [])
    (h2 : ∀ c ∈ id, isTermCh c = false)
    (h3 : ∀ c ∈ suf.take 1, isTermCh c = true) :
    tryUrlPat ("youtube.com/embed/".toList ++ (id ++ suf)) = some id := by
  have hrun : (id ++ suf).takeWhile (fun c => !isTermCh c) = id :=
    takeWhile_run _ id suf (fun c hc => by simp [h2 c hc])
      (fun c hc => by simp [h3 c hc])
  have hw : chopLit "youtube.com/watch?v=".toList
      ("youtube.com/embed/".toList ++ (id ++ suf)) = none := rfl
  have hy : chopLit "youtu.be/".toList
      ("youtube.com/embed/".toList ++ (id ++ suf)) = none := rfl
  unfold tryUrlPat
  rw [hw, hy, chopLit_append]
  simp [hrun, h1]

theorem tryUrlPat_none_of_id {l : List Char} (h : ∀ c ∈ l, isIdCh c = true) :
    tryUrlPat l = none := by
  unfold tryUrlPat
  cases hw : chopLit "youtube.com/watch?v=".toList l with
  | some r =>
    exfalso
    have hl := chopLit_some _ _ _ hw
    have hdot : ('.' : Char) ∈ l := by
      rw [hl]; exact List.mem_append_left _ (by decide)
    have hid := h '.' hdot
    simp [show isIdCh '.' = false from by decide] at hid
  | none =>
    cases hy : chopLit "youtu.be/".toList l with
    | some r =>
      exfalso
      have hl := chopLit_some _ _ _ hy
      have hdot : ('.' : Char) ∈ l := by
        rw [hl]; exact List.mem_append_left _ (by decide)
      have hid := h '.' hdot
      simp [show isIdCh '.' = false from by decide] at hid
    | none =>
      cases he : chopLit "youtube.com/embed/".toList l with
      | some r =>
        exfalso
        have hl := chopLit_some _ _ _ he
        have hdot : ('.' : Char) ∈ l := by
          rw [hl]; exact List.mem_append_left _ (by decide)
        have hid := h '.' hdot
        simp [show isIdCh '.' = false from by decide] at hid
      | none => simp

theorem scanUrlPat_none_of_id :
    ∀ l : List Char, (∀ c ∈ l, isIdCh c = true) → scanUrlPat l = none := by
  intro l
  induction l with
  | nil => intro _; rfl
  | cons c t ih =>
    intro h
    have h1 : tryUrlPat (c :: t) = none := tryUrlPat_none_of_id h
    simp only [scanUrlPat, h1]
    exact ih (fun d hd => h d (by simp [hd]))

/-- C3 counterexample: `example.com/watch?v=dQw4w9WgXcQ` is a URL
containing `watch?v=ID`, but the extractor requires the `youtube.com/`
host in front of `watch?v=` and returns the not-found signal instead of
the ID. -/
theorem c3_counterexample :
    extractVideoId "example.com/watch?v=dQw4w9WgXcQ" = none ∧
    extractVideoId "example.com/watch?v=dQw4w9WgXcQ" ≠ some "dQw4w9WgXcQ" := by
  decide

/-- C3 amended: for URLs containing `youtube.com/watch?v=ID`,
`youtu.be/ID` or `youtube.com/embed/ID` (ID non-empty, terminated at the
next `&`, newline, `?` or `#`), the extractor returns exactly ID; a bare
11-character `[a-zA-Z0-9_-]` string is returned as itself; and on an
input matching no pattern, such as `not-a-url`, it returns the not-found
signal and the pipeline fails with the Invalid-YouTube-URL error, making
no network call. -/
theorem c3_extract_id :
    (∀ id suf : List Char, id ≠ [] →
      (∀ c ∈ id, isTermCh c = false) → (∀ c ∈ suf.take 1, isTermCh c = true) →
      extractVideoId (String.mk
          ("https://www.youtube.com/watch?v=".toList ++ (id ++ suf))) =
        some (String.mk id) ∧
      extractVideoId (String.mk ("https://youtu.be/".toList ++ (id ++ suf))) =
        some (String.mk id) ∧
      extractVideoId (String.mk
          ("https://www.youtube.com/embed/".toList ++ (id ++ suf))) =
        some (String.mk id)) ∧
    (∀ id : List Char, id.length = 11 → (∀ c ∈ id, isIdCh c = true) →
      extractVideoId (String.mk id) = some (String.mk id)) ∧
    extractVideoId "not-a-url" = none ∧
    (∀ env, storeDocument env { url := some "not-a-url", documentId := none } =
      (.failure "Invalid YouTube URL. Could not extract video ID." sugg, [])) := by
  refine ⟨?_, ?_, by decide, ?_⟩
  · intro id suf h1 h2 h3
    refine ⟨?_, ?_, ?_⟩
    · have key := tryUrlPat_watch id suf h1 h2 h3
      have hstep : scanUrlPat
          ("https://www.youtube.com/watch?v=".toList ++ (id ++ suf)) =
          scanUrlPat ("youtube.com/watch?v=".toList ++ (id ++ suf)) := rfl
      unfold extractVideoId
      rw [toList_mk, hstep, scanUrlPat_cons_some key (by simp)]
    · have key := tryUrlPat_yb id suf h1 h2 h3
      have hstep : scanUrlPat ("https://youtu.be/".toList ++ (id ++ suf)) =
          scanUrlPat ("youtu.be/".toList ++ (id ++ suf)) := rfl
      unfold extractVideoId
      rw [toList_mk, hstep, scanUrlPat_cons_some key (by simp)]
    · have key := tryUrlPat_embed id suf h1 h2 h3
      have hstep : scanUrlPat
          ("https://www.youtube.com/embed/".toList ++ (id ++ suf)) =
          scanUrlPat ("youtube.com/embed/".toList ++ (id ++ suf)) := rfl
      unfold extractVideoId
      rw [toList_mk, hstep, scanUrlPat_cons_some key (by simp)]
  · intro id hl hc
    unfold extractVideoId
    rw [toList_mk, scanUrlPat_none_of_id id hc]
    simp [hl, List.all_eq_true]
    exact hc
  · intro env
    unfold storeDocument
    simp [show extractVideoId "not-a-url" = none from by decide]

/-- C3 witness: the amended statement at concrete URLs for each accepted
shape. -/
theorem c3_extract_id_witness :
    extractVideoId (String.mk ("https://www.youtube.com/watch?v=".toList ++
        ("dQw4w9WgXcQ".toList ++ "&t=1s".toList))) =
      some (String.mk "dQw4w9WgXcQ".toList) ∧
    extractVideoId (String.mk ("https://youtu.be/".toList ++
        ("dQw4w9WgXcQ".toList ++ ([] : List Char)))) =
      some (String.mk "dQw4w9WgXcQ".toList) ∧
    extractVideoId (String.mk "dQw4w9WgXcQ".toList) =
      some (String.mk "dQw4w9WgXcQ".toList) :=
  ⟨(c3_extract_id.1 _ _ (by decide) (by decide) (by decide)).1,
   (c3_extract_id.1 _ _ (by decide) (by decide) (by decide)).2.1,
   c3_extract_id.2.1 _ (by decide) (by decide)⟩

/-! ## C9 -/

theorem slidingChunks_base (size ov fuel : Nat) (l : List Char)
    (h : l.length ≤ size) : slidingChunks size ov (fuel + 1) l = [l] := by
  simp [slidingChunks, h]

theorem slidingChunks_step (size ov fuel : Nat) (l : List Char)
    (h : ¬ l.length ≤ size) :
    slidingChunks size ov (fuel + 1) l =
      l.take size :: slidingChunks size ov fuel (l.drop (max 1 (size - ov))) := by
  simp [slidingChunks, h]

/-- C9: chunking a 2500-character input with window 1000 and overlap 200
produces exactly the three chunks `[0,1000)`, `[800,1800)`, `[1600,2500)`:
three non-empty chunks, the first two of full window size and only the
final one shorter, each chunk's first 200 characters equal to the previous
chunk's last 200 characters, and the chunks cover the whole input without
gaps. -/
theorem c9_chunking : ∀ l : List Char, l.length = 2500 →
    slidingChunks 1000 200 l.length l =
      [l.take 1000, (l.drop 800).take 1000, l.drop 1600] ∧
    (splitText (String.mk l)).length = 3 ∧
    (l.take 1000 ≠ [] ∧ (l.drop 800).take 1000 ≠ [] ∧ l.drop 1600 ≠ []) ∧
    ((l.take 1000).length = 1000 ∧ ((l.drop 800).take 1000).length = 1000 ∧
      (l.drop 1600).length = 900) ∧
    ((l.drop 800).take 1000).take 200 = (l.take 1000).drop 800 ∧
    (l.drop 1600).take 200 = ((l.drop 800).take 1000).drop 800 ∧
    l.take 1000 ++ (((l.drop 800).take 1000).drop 200 ++
      (l.drop 1600).drop 200) = l := by
  intro l h
  have hm : max 1 (1000 - 200) = 800 := by norm_num
  have h1 : ¬ l.length ≤ 1000 := by omega
  have h2 : ¬ (l.drop 800).length ≤ 1000 := by simp [h]
  have h3 : (l.drop 1600).length ≤ 1000 := by simp [h]
  have e1 : slidingChunks 1000 200 l.length l =
      [l.take 1000, (l.drop 800).take 1000, l.drop 1600] := by
    rw [h, show (2500 : Nat) = 2499 + 1 from rfl,
      slidingChunks_step _ _ _ _ h1, hm,
      show (2499 : Nat) = 2498 + 1 from rfl,
      slidingChunks_step _ _ _ _ h2, hm, List.drop_drop,
      show (2498 : Nat) = 2497 + 1 from rfl]
    rw [show (800 + 800 : Nat) = 1600 from rfl] at *
    rw [slidingChunks_base _ _ _ _ h3]
  refine ⟨e1, ?_, ?_, ?_, ?_, ?_, ?_⟩
  · show ((slidingChunks 1000 200 l.length l).map String.mk).length = 3
    rw [e1]; rfl
  · refine ⟨?_, ?_, ?_⟩
    · intro hc
      have := congrArg List.length hc
      simp [h] at this
    · intro hc
      have := congrArg List.length hc
      simp [h] at this
    · intro hc
      have := congrArg List.length hc
      simp [h] at this
  · refine ⟨?_, ?_, ?_⟩ <;> simp [h]
  · rw [List.take_take, List.drop_take]
    norm_num
  · rw [List.drop_take, List.drop_drop]
  · rw [List.drop_take, List.drop_drop, List.drop_drop]
    norm_num
    rw [← List.append_assoc, ← List.take_add]
    exact List.take_append_drop 1800 l

/-- C9 witness: the chunk-shape statement instantiated at a concrete
2500-character input. -/
theorem c9_chunking_witness :
    slidingChunks 1000 200 (List.replicate 2500 'a').length
        (List.replicate 2500 'a') =
      [(List.replicate 2500 'a').take 1000,
       ((List.replicate 2500 'a').drop 800).take 1000,
       (List.replicate 2500 'a').drop 1600] :=
  (c9_chunking (List.replicate 2500 'a') (by simp)).1


/-! ## C4 -/

theorem find?_none_of_any_false {p : Json → Bool} {l : List Json}
    (h : l.any p = false) : l.find? p = none := by
  rw [List.find?_eq_none]
  intro x hx hpx
  have htrue : l.any p = true := List.any_eq_true.mpr ⟨x, hx, hpx⟩
  rw [h] at htrue
  exact Bool.noConfusion htrue

theorem find?_some_of_any_true {p : Json → Bool} {l : List Json}
    (h : l.any p = true) : ∃ t, l.find? p = some t := by
  have := List.find?_isSome.mpr (List.any_eq_true.mp h)
  exact Option.isSome_iff_exists.mp this

/-- C4: for every non-empty caption-track list the selected track follows
the preference ladder: the first track whose `languageCode` is `en` and
whose `kind` is not `asr`; else the first with `languageCode` `en`; else
the first whose `languageCode` starts with `en`; else the first track —
and a track is always selected. -/
theorem c4_track_selection :
    ∀ tracks : List Json, tracks ≠ [] →
      ((∃ t, selectTrack tracks = some t) ∧
       (tracks.any trackP1 = true → selectTrack tracks = tracks.find? trackP1) ∧
       (tracks.any trackP1 = false → tracks.any trackP2 = true →
         selectTrack tracks = tracks.find? trackP2) ∧
       (tracks.any trackP1 = false → tracks.any trackP2 = false →
         tracks.any trackP3 = true → selectTrack tracks = tracks.find? trackP3) ∧
       (tracks.any trackP1 = false → tracks.any trackP2 = false →
         tracks.any trackP3 = false → selectTrack tracks = tracks.head?)) := by
  intro tracks hne
  refine ⟨?_, ?_, ?_, ?_, ?_⟩
  · unfold selectTrack
    cases h1 : tracks.find? trackP1 with
    | some t => exact ⟨t, rfl⟩
    | none =>
      cases h2 : tracks.find? trackP2 with
      | some t => exact ⟨t, rfl⟩
      | none =>
        cases h3 : tracks.find? trackP3 with
        | some t => exact ⟨t, rfl⟩
        | none =>
          cases tracks with
          | nil => exact absurd rfl hne
          | cons a l => exact ⟨a, rfl⟩
  · intro h1
    obtain ⟨t, ht⟩ := find?_some_of_any_true h1
    unfold selectTrack
    rw [ht]
  · intro h1 h2
    obtain ⟨t, ht⟩ := find?_some_of_any_true h2
    unfold selectTrack
    rw [find?_none_of_any_false h1, ht]
  · intro h1 h2 h3
    obtain ⟨t, ht⟩ := find?_some_of_any_true h3
    unfold selectTrack
    rw [find?_none_of_any_false h1, find?_none_of_any_false h2, ht]
  · intro h1 h2 h3
    unfold selectTrack
    rw [find?_none_of_any_false h1, find?_none_of_any_false h2,
      find?_none_of_any_false h3]

/-- C4 witness: on `tracksW` the first preference applies and selection
equals the first English non-auto-generated track. -/
theorem c4_track_selection_witness :
    selectTrack tracksW = tracksW.find? trackP1 :=
  (c4_track_selection tracksW (by unfold tracksW; exact List.cons_ne_nil _ _)).2.1
    (by decide)

/-! ## C5 -/

theorem hasStoreCall_map_fetched (l : List FetchCall) :
    hasStoreCall (l.map NetCall.fetched) = false := by
  induction l with
  | nil => rfl
  | cons c t ih => simp [hasStoreCall, ih]

/-- C5: whenever transcript acquisition returns the no-transcript signal
(or an empty/whitespace-only transcript), the pipeline fails with the
transcript-unavailable error and the vector-store sink is never invoked. -/
theorem c5_no_transcript :
    ∀ env req u vid, req.url = some u → u ≠ "" → extractVideoId u = some vid →
      keyTruthy env = true →
      ((fetchTranscript env vid).1 = none ∨
        ∃ t, (fetchTranscript env vid).1 = some t ∧ jsTrim t = "") →
      (storeDocument env req).1 = .failure noTranscriptMsg sugg ∧
      hasStoreCall (storeDocument env req).2 = false := by
  intro env req u vid hurl hu hvid hkey hbad
  rcases hbad with hb | ⟨t, ht, htr⟩
  · simp [storeDocument, hurl, hu, hvid, hkey, hb, hasStoreCall_map_fetched]
  · simp [storeDocument, hurl, hu, hvid, hkey, ht, htr, hasStoreCall_map_fetched]

/-- C5 witness: the statement instantiated in an environment where the
watch-page fetch fails, so the transcript comes back unavailable. -/
theorem c5_no_transcript_witness :
    (storeDocument envNoFetch reqOk).1 = .failure noTranscriptMsg sugg ∧
    hasStoreCall (storeDocument envNoFetch reqOk).2 = false :=
  c5_no_transcript envNoFetch reqOk "https://youtu.be/abcdefghijk" "abcdefghijk"
    rfl (by decide) (by decide) (by decide) (Or.inl (by decide))

/-! ## C7 -/

/-- C7 counterexample: with the API key absent but an unparsable URL, the
pipeline fails with the Invalid-YouTube-URL error, not with the
configuration error the claim promises for every key-absent request. -/
theorem c7_counterexample :
    envNoKey.geminiApiKey = none ∧
    (storeDocument envNoKey { url := some "not-a-url", documentId := none }).1 =
      .failure "Invalid YouTube URL. Could not extract video ID." sugg ∧
    (storeDocument envNoKey { url := some "not-a-url", documentId := none }).1 ≠
      .failure "GEMINI_API_KEY is not configured in environment variables"
        sugg := by
  decide

/-- C7 amended: for every request whose URL yields a video ID, a missing
API key makes the pipeline fail with the configuration error before any
network call; and for every key-absent request, whatever the URL, no
network call at all is made. -/
theorem c7_key_check :
    (∀ env req u vid, env.geminiApiKey = none → req.url = some u → u ≠ "" →
      extractVideoId u = some vid →
      storeDocument env req =
        (.failure "GEMINI_API_KEY is not configured in environment variables"
          sugg, [])) ∧
    (∀ env req, env.geminiApiKey = none → (storeDocument env req).2 = []) := by
  constructor
  · intro env req u vid hk hurl hu hvid
    have hkt : keyTruthy env = false := by simp [keyTruthy, hk]
    simp [storeDocument, hurl, hu, hvid, hkt]
  · intro env req hk
    have hkt : keyTruthy env = false := by simp [keyTruthy, hk]
    unfold storeDocument
    cases hurl : req.url with
    | none => rfl
    | some u =>
      by_cases hu : u = ""
      · simp [hu]
      · cases hvid : extractVideoId u with
        | none => simp [hu, hvid]
        | some vid => simp [hu, hvid, hkt]

/-- C7 witness: the configuration failure at a concrete key-less
environment and valid URL. -/
theorem c7_key_check_witness :
    storeDocument envNoKey reqOk =
      (.failure "GEMINI_API_KEY is not configured in environment variables"
        sugg, []) :=
  c7_key_check.1 envNoKey reqOk "https://youtu.be/abcdefghijk" "abcdefghijk"
    rfl rfl (by decide) (by decide)

/-! ## C2 -/

theorem annotate_length (vid title : String) (docId : Option String)
    (total : Nat) (src : String) :
    ∀ i0 texts,
      (annotate vid title docId total src i0 texts).length = texts.length := by
  intro i0 texts
  induction texts generalizing i0 with
  | nil => rfl
  | cons t rest ih => simp [annotate, ih]

theorem annotate_get (vid title : String) (docId : Option String)
    (total : Nat) (src : String) :
    ∀ texts i0 i (h : i < (annotate vid title docId total src i0 texts).length),
      ((annotate vid title docId total src i0 texts).get ⟨i, h⟩).metadata =
        mkMetadata vid title docId (i0 + i) total src := by
  intro texts
  induction texts with
  | nil => intro i0 i h; simp [annotate] at h
  | cons t rest ih =>
    intro i0 i h
    cases i with
    | zero => simp [annotate]
    | succ j =>
      have hlen : j < (annotate vid title docId total src (i0 + 1) rest).length := by
        have := h
        simp [annotate] at this
        simpa [annotate_length] using this
      have step := ih (i0 + 1) j hlen
      have : ((annotate vid title docId total src i0 (t :: rest)).get
          ⟨j + 1, h⟩).metadata =
          ((annotate vid title docId total src (i0 + 1) rest).get
            ⟨j, hlen⟩).metadata := by
        simp [annotate]
      rw [this, step]
      congr 1
      omega

theorem storeCall_not_mem_fetched {docs : List ChunkDoc} (l : List FetchCall) :
    NetCall.storeCall docs ∉ l.map NetCall.fetched := by
  induction l with
  | nil => simp
  | cons c t ih => simp [ih]

/-- C2 amended: for every successful pipeline run, each chunk document
submitted to the vector store carries exactly the metadata object
`{videoId, videoTitle, document_id, chunkIndex, totalChunks, source}` —
the document-identifier key being `document_id`, not `documentId` — with
`chunkIndex` the chunk's zero-based position, `totalChunks` the final
chunk count, and `source` the request URL. -/
theorem c2_metadata :
    ∀ env req u vid m k t docs,
      req.url = some u → u ≠ "" → extractVideoId u = some vid →
      (storeDocument env req).1 = .success m k t →
      NetCall.storeCall docs ∈ (storeDocument env req).2 →
      (docs.length = k ∧
       ∀ i (h : i < docs.length),
         (docs.get ⟨i, h⟩).metadata =
           mkMetadata vid t req.documentId i docs.length u) := by
  intro env req u vid m k t docs hurl hu hvid hs hmem
  simp only [storeDocument, hurl] at hs hmem
  rw [if_neg hu] at hs hmem
  simp only [hvid] at hs hmem
  by_cases hkey : keyTruthy env = true
  case neg =>
    rw [if_neg hkey] at hs
    exact absurd hs (by simp)
  case pos =>
    rw [if_pos hkey] at hs hmem
    cases hft : (fetchTranscript env vid).1 with
    | none =>
      simp only [hft] at hs
      exact absurd hs (by simp)
    | some transcript =>
      simp only [hft] at hs hmem
      by_cases htr : jsTrim transcript = ""
      case pos =>
        rw [if_pos htr] at hs
        exact absurd hs (by simp)
      case neg =>
        rw [if_neg htr] at hs hmem
        cases hsp : splitText ("Video title: " ++ getVideoTitle env vid ++
            " | Video context: " ++ transcript) with
        | nil =>
          simp only [hsp] at hs
          exact absurd hs (by simp)
        | cons t0 tail =>
          simp only [hsp] at hs hmem
          by_cases ht0 : t0 = ""
          case pos =>
            rw [if_pos ht0] at hs
            exact absurd hs (by simp)
          case neg =>
            rw [if_neg ht0] at hs hmem
            cases hadd : env.addDocsErr with
            | some e =>
              simp only [hadd] at hs
              exact absurd hs (by simp)
            | none =>
              simp only [hadd] at hs hmem
              simp only [StoreResult.success.injEq] at hs
              obtain ⟨hm, hk, ht⟩ := hs
              simp only [List.mem_append, List.mem_singleton,
                NetCall.storeCall.injEq] at hmem
              rcases hmem with (hmem | hmem) | hmem
              · exact absurd hmem (storeCall_not_mem_fetched _)
              · exact absurd hmem (by simp)
              · subst hmem
                constructor
                · rw [annotate_length, ← hk]
                · intro i hi
                  have := annotate_get vid (getVideoTitle env vid)
                    req.documentId (t0 :: tail).length u (t0 :: tail) 0 i
                    (by simpa using hi)
                  rw [this]
                  rw [← ht]
                  congr 1
                  · omega
                  · rw [annotate_length]

/-- C2 counterexample: a successful concrete run stores a chunk whose
metadata keys are `videoId, videoTitle, document_id, chunkIndex,
totalChunks, source` — the claimed key `documentId` is absent, because the
source writes the field as `document_id`. -/
theorem c2_counterexample :
    (storeDocument envOk reqOk).1 =
      .success "Successfully processed video \"T\" with 1 chunks" 1 "T" ∧
    (((storedDocsOf (storeDocument envOk reqOk).2).headD
        ⟨"", []⟩).metadata).map Prod.fst =
      ["videoId", "videoTitle", "document_id", "chunkIndex", "totalChunks",
       "source"] ∧
    ¬ ("documentId" ∈ (((storedDocsOf (storeDocument envOk reqOk).2).headD
        ⟨"", []⟩).metadata).map Prod.fst) := by
  decide

/-- C2 witness: the amended metadata statement instantiated on the
successful concrete run. -/
theorem c2_metadata_witness :
    docsOk.length = 1 ∧
    ((docsOk.get ⟨0, by decide⟩).metadata =
      mkMetadata "abcdefghijk" "T" (some "doc1") 0 docsOk.length
        "https://youtu.be/abcdefghijk") := by
  have h := c2_metadata envOk reqOk "https://youtu.be/abcdefghijk" "abcdefghijk"
    "Successfully processed video \"T\" with 1 chunks" 1 "T" docsOk
    rfl (by decide) (by decide) (by decide) (by decide)
  exact ⟨h.1, h.2 0 (by decide)⟩

/-! ## C6 -/

/-- C6 counterexample: in the regex-fallback path with a non-JSON caption
body, the code parses that same `&fmt=json3` response body as XML and
never fetches the track's plain URL `U`, contrary to the claim's "fetches
the interleaved-XML format at the track's plain URL". -/
theorem c6_counterexample :
    fetchTranscript envC6 "v" =
      (some "hi", [.watchPage "v", .caption "U&fmt=json3"]) ∧
    parseCaptionXml envC6.jp fbBody = some "hi" ∧
    ¬ (FetchCall.caption "U" ∈ (fetchTranscript envC6 "v").2) := by
  decide

/-- C6 amended: when the player-response path yields nothing and the
regex fallback finds a `"captionTracks"` array, the code takes the first
track and requests only the `&fmt=json3` payload; if that response fails
to parse as JSON, the four-pattern XML parse runs on that same response
body, and no request is made to the track's plain URL. -/
theorem c6_fallback :
    ∀ env vid html cap t0 rest u body,
      env.fetch ("https://www.youtube.com/watch?v=" ++ vid) = some html →
      (tryPrimary env html).1 = none →
      scanFirst tryCaptionTracks html.toList = some cap →
      env.jp (String.mk cap) = some (Json.arr (t0 :: rest)) →
      jGetStr t0 "baseUrl" = some u → u ≠ "" →
      env.fetch (u ++ "&fmt=json3") = some body →
      env.jp body = none →
      fetchTranscript env vid =
        (parseCaptionXml env.jp body,
         .watchPage vid ::
           ((tryPrimary env html).2 ++ [.caption (u ++ "&fmt=json3")])) := by
  intro env vid html cap t0 rest u body hw hp hscan hjp hbu hu hfetch hjb
  have hfb : tryFallback env html =
      (parseCaptionXml env.jp body, [.caption (u ++ "&fmt=json3")]) := by
    simp only [tryFallback, hscan, hjp, hbu]
    rw [if_neg hu]
    simp only [hfetch, json3Run, hjb]
    simp
  simp only [fetchTranscript, hw, hp, hfb]

/-- C6 witness: the amended fallback statement instantiated on the
concrete fallback environment. -/
theorem c6_fallback_witness :
    fetchTranscript envC6 "v" =
      (parseCaptionXml envC6.jp fbBody,
       .watchPage "v" ::
         ((tryPrimary envC6 fbHtml).2 ++ [.caption ("U" ++ "&fmt=json3")])) :=
  c6_fallback envC6 "v" fbHtml fbCapture.toList
    (Json.obj [("baseUrl", Json.str "U")]) [] "U" fbBody
    rfl (by decide) (by decide) rfl (by decide) (by decide) (by decide) rfl

/-! ## C8 -/

theorem splitText_cons (s : String) (h : s.toList ≠ []) :
    ∃ t0 tail, splitText s = t0 :: tail ∧ t0 ≠ "" := by
  unfold splitText
  cases hf : s.toList.length with
  | zero => exact absurd (List.length_eq_zero.mp hf) h
  | succ n =>
    by_cases hle : s.toList.length ≤ 1000
    · rw [slidingChunks_base _ _ _ _ hle]
      refine ⟨String.mk s.toList, [], by simp, ?_⟩
      intro hc
      exact h (congrArg String.data hc)
    · rw [slidingChunks_step _ _ _ _ hle]
      refine ⟨String.mk (s.toList.take 1000),
        (slidingChunks 1000 200 n
          (s.toList.drop (max 1 (1000 - 200)))).map String.mk, rfl, ?_⟩
      intro hc
      have hnil : s.toList.take 1000 = [] := congrArg String.data hc
      rcases List.take_eq_nil_iff.mp hnil with h0 | h0
      · exact Nat.noConfusion h0
      · exact h h0

/-- C8: the title resolver is total over the oEmbed outcome — a failed or
non-success oEmbed call yields the fixed placeholder title, a successful
one yields its title — and a failed title lookup never fails the
pipeline: an otherwise-successful run still returns `ok` with the
placeholder as its video title. -/
theorem c8_title_resolver :
    (∀ env vid, env.oembed vid = none →
      getVideoTitle env vid = "Unknown Title") ∧
    (∀ env vid t, env.oembed vid = some t → getVideoTitle env vid = t) ∧
    (∀ env req u vid tscript,
      req.url = some u → u ≠ "" → extractVideoId u = some vid →
      keyTruthy env = true →
      (fetchTranscript env vid).1 = some tscript → jsTrim tscript ≠ "" →
      env.oembed vid = none → env.addDocsErr = none →
      ∃ m k, (storeDocument env req).1 = .success m k "Unknown Title") := by
  refine ⟨?_, ?_, ?_⟩
  · intro env vid h
    simp [getVideoTitle, h]
  · intro env vid t h
    simp [getVideoTitle, h]
  · intro env req u vid tscript hurl hu hvid hkey hft htr hoe hadd
    have htitle : getVideoTitle env vid = "Unknown Title" := by
      simp [getVideoTitle, hoe]
    have hne : ("Video title: " ++ getVideoTitle env vid ++
        " | Video context: " ++ tscript).toList ≠ [] := by
      intro hc
      rw [show ("Video title: " ++ getVideoTitle env vid ++
          " | Video context: " ++ tscript).toList =
          ("Video title: " ++ getVideoTitle env vid ++
            " | Video context: " ++ tscript).data from rfl] at hc
      simp only [String.data_append, List.append_eq_nil] at hc
      exact absurd hc.1.1.1 (by decide)
    obtain ⟨t0, tail, hsp, ht0⟩ := splitText_cons _ hne
    simp only [storeDocument, hurl]
    rw [if_neg hu]
    simp only [hvid, hkey, if_pos rfl, hft]
    rw [if_neg htr]
    simp only [hsp]
    rw [if_neg ht0]
    simp only [hadd, htitle]
    exact ⟨_, _, rfl⟩

/-- C8 witness: the resolver statement applied at a concrete environment
whose oEmbed endpoint fails, together with the concrete successful run it
still produces. -/
theorem c8_title_resolver_witness :
    getVideoTitle envOkNoTitle "abcdefghijk" = "Unknown Title" ∧
    (storeDocument envOkNoTitle reqOk).1 =
      .success "Successfully processed video \"Unknown Title\" with 1 chunks"
        1 "Unknown Title" :=
  ⟨c8_title_resolver.1 envOkNoTitle "abcdefghijk" rfl, by decide⟩
